import Mathlib

/-!
Shallow embedding of `streamlit_app.py`, a single-file dashboard whose core is
the cached synthetic-data generator `load_mock`, a client-side date filter,
empty-state guards, and a group-by breakdown.

Modelling conventions:
* A calendar day (`pandas.Timestamp` normalised to midnight) is an integer day
  number `ℤ`; "today" (`pd.Timestamp.utcnow().normalize()`) is a parameter.
* Float arithmetic is modelled over `ℚ`; `numpy`'s `.round(2)` (half-to-even)
  is `round2`.
* The two draws from `np.random.default_rng(42)` are modelled as abstract
  streams `ints : ℕ → ℤ` (for `rs.integers(800, 3000, size=n)`, giving the
  first `n` values of the integer stream) and `us : ℕ → ℚ` (for
  `rs.uniform(0.5, 2.0, size=n)`).  Because the generator is freshly seeded
  with 42 on every invocation, every invocation reads the same streams from
  position 0; numpy's documented ranges for the draws are carried as
  hypotheses (`IntStream`, `UniformStream`).
-/

namespace StreamlitApp

/-- One row of the tidy DataFrame returned by `load_mock`:
columns `day`, `project`, `tx_count`, `amount_usd`. -/
structure Obs where
  day : ℤ
  project : String
  tx_count : ℤ
  amount_usd : ℚ
deriving Repr, DecidableEq

/-- numpy rounding of a rational to the nearest integer, ties to even. -/
def roundHalfEven (q : ℚ) : ℤ :=
  let f := ⌊q⌋
  let r := q - f
  if r < 1/2 then f
  else if 1/2 < r then f + 1
  else if f % 2 = 0 then f else f + 1

/-- `.round(2)`: round to 2 decimal places. -/
def round2 (q : ℚ) : ℚ := (roundHalfEven (q * 100) : ℚ) / 100

/-- `pd.date_range(end=today, periods=days, freq="D")`: the `days` consecutive
day numbers ending at `today`. -/
def dateRange (today : ℤ) (days : ℕ) : List ℤ :=
  (List.range days).map (fun i : ℕ => today - ((days : ℤ) - 1) + (i : ℤ))

/-- The `day` column: `np.repeat(rng, len(projects))`. -/
def dayColumn (today : ℤ) (days : ℕ) (projects : List String) : List ℤ :=
  (dateRange today days).flatMap (fun d => List.replicate projects.length d)

/-- The `project` column: `projects * len(rng)` (tuple repetition). -/
def projectColumn (today : ℤ) (days : ℕ) (projects : List String) : List String :=
  (List.replicate (dateRange today days).length projects).flatten

/-- The documented range of `rs.integers(800, 3000)`: half-open `[800, 3000)`. -/
def IntStream (ints : ℕ → ℤ) : Prop := ∀ i, 800 ≤ ints i ∧ ints i < 3000

/-- The documented range of `rs.uniform(0.5, 2.0)`: half-open `[0.5, 2.0)`. -/
def UniformStream (us : ℕ → ℚ) : Prop := ∀ i, 1/2 ≤ us i ∧ us i < 2

/-- `load_mock(days, projects)` at reference instant `today`, with the seeded
random streams `ints`/`us`: builds the two-column frame
`{"day": np.repeat(rng, len(projects)), "project": projects * len(rng)}` and
adds `tx_count = rs.integers(800, 3000, size=n)` and
`amount_usd = (tx_count * rs.uniform(0.5, 2.0, size=n)).round(2)` row-wise. -/
def load_mock (ints : ℕ → ℤ) (us : ℕ → ℚ) (today : ℤ) (days : ℕ)
    (projects : List String) : List Obs :=
  ((dayColumn today days projects).zip (projectColumn today days projects)).enum.map
    (fun ip =>
      { day := ip.2.1
        project := ip.2.2
        tx_count := ints ip.1
        amount_usd := round2 ((ints ip.1 : ℚ) * us ip.1) })

/-! ### View-layer operations: filter, guards, breakdown, cache -/

/-- The client-side date filter (line 63):
`df[(df["day"].dt.date >= d1[0]) & (df["day"].dt.date <= d1[-1])]`. -/
def dateFilter (d1 d2 : ℤ) (df : List Obs) : List Obs :=
  df.filter (fun o => decide (d1 ≤ o.day) && decide (o.day ≤ d2))

/-- The sidebar candidate list (line 54). -/
def all_projects : List String :=
  ["uniswap", "aave", "curve", "balancer", "sushiswap"]

/-- The `projects` argument at the `load_mock` call site (line 60):
`tuple(selected) if selected else tuple(all_projects)`. -/
def projectsArg (selected : List String) : List String :=
  if selected.isEmpty then all_projects else selected

/-- How one rerun of the script ends after the guards of lines 66-72. -/
inductive ViewOutcome where
  | emptySelection
  | emptyResult
  | rendered
deriving Repr, DecidableEq

/-- The empty/validation guards (lines 66-72): first `if not selected:`
`st.info(...)`; `st.stop()`, then `if df.empty:` `st.warning(...)`;
`st.stop()`; otherwise rendering continues. -/
def viewOutcome (selected : List String) (df : List Obs) : ViewOutcome :=
  if selected.isEmpty then ViewOutcome.emptySelection
  else if df.isEmpty then ViewOutcome.emptyResult
  else ViewOutcome.rendered

/-- `@st.cache_data(ttl=600)`. -/
def ttlSeconds : ℤ := 600

/-- One cached call of `st.cache_data` for a fixed key: a live entry
(younger than the TTL) is returned as-is without re-invoking `compute`;
otherwise `compute` runs at the current instant and its result is stored. -/
def cacheStep (compute : ℤ → List Obs) (entry : Option (List Obs × ℤ)) (now : ℤ) :
    List Obs × (List Obs × ℤ) :=
  match entry with
  | some (v, t0) =>
      if now - t0 < ttlSeconds then (v, (v, t0))
      else (compute now, (compute now, now))
  | none => (compute now, (compute now, now))

/-- `df.groupby(dim, as_index=False)` group keys: pandas sorts the distinct
keys ascending (`sort=True` default). -/
def groupKeys (df : List Obs) : List String :=
  List.insertionSort (fun a b => a ≤ b) (df.map Obs.project).dedup

/-- `df.groupby(dim, as_index=False)[metric].sum()`: per distinct project, the
sum of the chosen metric over that project's rows. -/
def groupSum (metric : Obs → ℚ) (df : List Obs) : List (String × ℚ) :=
  (groupKeys df).map
    (fun p => (p, ((df.filter (fun o => o.project == p)).map metric).sum))

/-- `.sort_values(metric, ascending=False)`. -/
def sortByMetricDesc (g : List (String × ℚ)) : List (String × ℚ) :=
  List.insertionSort (fun a b => b.2 ≤ a.2) g

/-- The breakdown-tab pipeline (line 111): group by project, sum the metric,
sort descending by the summed metric, keep the first `topn` rows. -/
def breakdown (metric : Obs → ℚ) (topn : ℕ) (df : List Obs) : List (String × ℚ) :=
  (sortByMetricDesc (groupSum metric df)).take topn

/-! ### Concrete sample streams and frames, used to instantiate theorems -/

/-- A constant admissible integer stream. -/
def constInts : ℕ → ℤ := fun _ => 800

/-- A constant admissible uniform stream. -/
def constUs : ℕ → ℚ := fun _ => 1

/-- A strictly increasing admissible integer stream. -/
def seqInts : ℕ → ℤ := fun i => 800 + (i : ℤ)

/-- The 14-row example frame: 7 days × {uniswap, aave}. -/
def sampleFrame14 : List Obs := load_mock seqInts constUs 13 7 ["uniswap", "aave"]

/-! ### Structural lemmas about the generated frame -/

lemma zip_replicate_pair (d : ℤ) :
    ∀ P : List String, (List.replicate P.length d).zip P = P.map (fun p => (d, p))
  | [] => rfl
  | p :: P => by
      simp [List.replicate_succ, zip_replicate_pair d P]

lemma zip_columns_aux (P : List String) :
    ∀ rng : List ℤ,
      (rng.flatMap (fun d => List.replicate P.length d)).zip
        ((List.replicate rng.length P).flatten) =
      rng.flatMap (fun d => P.map (fun p => (d, p)))
  | [] => rfl
  | d :: rng => by
      simp only [List.flatMap_cons, List.length_cons, List.replicate_succ,
        List.flatten_cons]
      rw [List.zip_append (by simp), zip_columns_aux P rng, zip_replicate_pair]

/-- The zipped `(day, project)` base frame is the days-outer / projects-inner
nested product. -/
lemma zip_columns (today : ℤ) (days : ℕ) (projects : List String) :
    (dayColumn today days projects).zip (projectColumn today days projects) =
      (dateRange today days).flatMap (fun d => projects.map (fun p => (d, p))) := by
  unfold dayColumn projectColumn
  exact zip_columns_aux projects (dateRange today days)

lemma length_dateRange (today : ℤ) (days : ℕ) :
    (dateRange today days).length = days := by
  unfold dateRange
  rw [List.length_map, List.length_range]

lemma length_zip_columns (today : ℤ) (days : ℕ) (projects : List String) :
    ((dayColumn today days projects).zip (projectColumn today days projects)).length =
      days * projects.length := by
  rw [zip_columns]
  simp [List.length_flatMap, Function.comp_def, length_dateRange,
    List.map_const', List.sum_replicate, smul_eq_mul, dateRange]

/-- Projecting the `(day, project)` pair out of each generated row recovers the
zipped base frame. -/
lemma load_mock_pairs (ints : ℕ → ℤ) (us : ℕ → ℚ) (today : ℤ) (days : ℕ)
    (projects : List String) :
    (load_mock ints us today days projects).map (fun o => (o.day, o.project)) =
      (dayColumn today days projects).zip (projectColumn today days projects) := by
  unfold load_mock
  rw [List.map_map]
  exact List.enum_map_snd _

lemma length_load_mock (ints : ℕ → ℤ) (us : ℕ → ℚ) (today : ℤ) (days : ℕ)
    (projects : List String) :
    (load_mock ints us today days projects).length = days * projects.length := by
  unfold load_mock
  rw [List.length_map, List.enum_length, length_zip_columns]

/-- The `tx_count` column is the prefix of the seeded integer stream. -/
lemma load_mock_tx (ints : ℕ → ℤ) (us : ℕ → ℚ) (today : ℤ) (days : ℕ)
    (projects : List String) :
    (load_mock ints us today days projects).map Obs.tx_count =
      (List.range (days * projects.length)).map ints := by
  unfold load_mock
  rw [List.map_map]
  have h : (Obs.tx_count ∘ fun ip : ℕ × ℤ × String =>
      Obs.mk ip.2.1 ip.2.2 (ints ip.1) (round2 ((ints ip.1 : ℚ) * us ip.1))) =
      ints ∘ Prod.fst := rfl
  rw [h, ← List.map_map, List.enum_map_fst, length_zip_columns]

/-- The `amount_usd` column is determined index-wise by the two streams. -/
lemma load_mock_amount (ints : ℕ → ℤ) (us : ℕ → ℚ) (today : ℤ) (days : ℕ)
    (projects : List String) :
    (load_mock ints us today days projects).map Obs.amount_usd =
      (List.range (days * projects.length)).map
        (fun i => round2 ((ints i : ℚ) * us i)) := by
  unfold load_mock
  rw [List.map_map]
  have h : (Obs.amount_usd ∘ fun ip : ℕ × ℤ × String =>
      Obs.mk ip.2.1 ip.2.2 (ints ip.1) (round2 ((ints ip.1 : ℚ) * us ip.1))) =
      (fun i => round2 ((ints i : ℚ) * us i)) ∘ Prod.fst := rfl
  rw [h, ← List.map_map, List.enum_map_fst, length_zip_columns]

/-- The `project` column of the generated frame. -/
lemma load_mock_project (ints : ℕ → ℤ) (us : ℕ → ℚ) (today : ℤ) (days : ℕ)
    (projects : List String) :
    (load_mock ints us today days projects).map Obs.project =
      projectColumn today days projects := by
  have h := congrArg (List.map Prod.snd) (load_mock_pairs ints us today days projects)
  rw [List.map_map] at h
  have hc : (Prod.snd ∘ fun o : Obs => (o.day, o.project)) = Obs.project := rfl
  rw [hc] at h
  rw [h]
  apply List.map_snd_zip
  unfold dayColumn projectColumn
  simp [List.length_flatMap, Function.comp_def, List.map_const',
    List.sum_replicate, smul_eq_mul, List.length_flatten]

/-- The `day` column of the generated frame. -/
lemma load_mock_day (ints : ℕ → ℤ) (us : ℕ → ℚ) (today : ℤ) (days : ℕ)
    (projects : List String) :
    (load_mock ints us today days projects).map Obs.day =
      dayColumn today days projects := by
  have h := congrArg (List.map Prod.fst) (load_mock_pairs ints us today days projects)
  rw [List.map_map] at h
  have hc : (Prod.fst ∘ fun o : Obs => (o.day, o.project)) = Obs.day := rfl
  rw [hc] at h
  rw [h]
  apply List.map_fst_zip
  unfold dayColumn projectColumn
  simp [List.length_flatMap, Function.comp_def, List.map_const',
    List.sum_replicate, smul_eq_mul, List.length_flatten]

/-- Every generated row arises from an index `i` and a `(day, project)` pair. -/
lemma mem_load_mock {ints : ℕ → ℤ} {us : ℕ → ℚ} {today : ℤ} {days : ℕ}
    {projects : List String} {o : Obs}
    (h : o ∈ load_mock ints us today days projects) :
    ∃ i d p, o = Obs.mk d p (ints i) (round2 ((ints i : ℚ) * us i)) := by
  unfold load_mock at h
  obtain ⟨ip, _, rfl⟩ := List.mem_map.mp h
  exact ⟨ip.1, ip.2.1, ip.2.2, rfl⟩

/-! ### Support lemmas -/

lemma roundHalfEven_nonneg {q : ℚ} (h : 0 ≤ q) : 0 ≤ roundHalfEven q := by
  unfold roundHalfEven
  have hf : (0 : ℤ) ≤ ⌊q⌋ := Int.floor_nonneg.mpr h
  dsimp only
  split_ifs <;> omega

lemma round2_nonneg {q : ℚ} (h : 0 ≤ q) : 0 ≤ round2 q := by
  unfold round2
  have h100 : (0 : ℚ) ≤ q * 100 := by positivity
  have := roundHalfEven_nonneg h100
  have hcast : (0 : ℚ) ≤ (roundHalfEven (q * 100) : ℚ) := by exact_mod_cast this
  positivity

/-- Every generated `day` lies in the closed window ending at `today`. -/
lemma load_mock_day_bounds {ints : ℕ → ℤ} {us : ℕ → ℚ} {today : ℤ} {days : ℕ}
    {projects : List String} {o : Obs}
    (h : o ∈ load_mock ints us today days projects) :
    today - ((days : ℤ) - 1) ≤ o.day ∧ o.day ≤ today := by
  have hd : o.day ∈ dayColumn today days projects := by
    rw [← load_mock_day ints us today days projects]
    exact List.mem_map_of_mem _ h
  unfold dayColumn at hd
  rw [List.mem_flatMap] at hd
  obtain ⟨d, hdr, hrep⟩ := hd
  have hde : o.day = d := List.eq_of_mem_replicate hrep
  unfold dateRange at hdr
  rw [List.mem_map] at hdr
  obtain ⟨i, hi, hdi⟩ := hdr
  rw [List.mem_range] at hi
  subst hde
  rw [← hdi]
  omega

lemma constInts_admissible : IntStream constInts := by
  intro i
  unfold constInts
  norm_num

lemma constUs_admissible : UniformStream constUs := by
  intro i
  unfold constUs
  norm_num

lemma nodup_dateRange (today : ℤ) (days : ℕ) : (dateRange today days).Nodup := by
  unfold dateRange
  refine List.Nodup.map ?_ (List.nodup_range days)
  intro a b h
  have h' : today - ((days : ℤ) - 1) + (a : ℤ) = today - ((days : ℤ) - 1) + (b : ℤ) := h
  omega

lemma mem_dateRange_iff {today : ℤ} {days : ℕ} {d : ℤ} :
    d ∈ dateRange today days ↔ today - ((days : ℤ) - 1) ≤ d ∧ d ≤ today := by
  unfold dateRange
  simp only [List.mem_map, List.mem_range]
  constructor
  · rintro ⟨i, hi, rfl⟩
    omega
  · rintro ⟨h1, h2⟩
    refine ⟨(d - (today - ((days : ℤ) - 1))).toNat, ?_, ?_⟩ <;> omega

lemma two_elem_nodup_eq {α : Type} :
    ∀ (l : List α) (p q : α), p ≠ q → l.Nodup → (∀ k, k ∈ l ↔ k = p ∨ k = q) →
      l = [p, q] ∨ l = [q, p]
  | [], p, _, _, _, hmem => absurd ((hmem p).mpr (Or.inl rfl)) (List.not_mem_nil p)
  | [a], p, q, hpq, _, hmem => by
      have hp := (hmem p).mpr (Or.inl rfl)
      have hq := (hmem q).mpr (Or.inr rfl)
      rw [List.mem_singleton] at hp hq
      exact absurd (hp.trans hq.symm) hpq
  | [a, b], p, q, hpq, hnd, hmem => by
      have ha := (hmem a).mp (by simp)
      have hb := (hmem b).mp (by simp)
      have hab : a ≠ b := by
        rw [List.nodup_cons] at hnd
        intro h
        exact hnd.1 (by simp [h])
      rcases ha with rfl | rfl <;> rcases hb with rfl | rfl
      · exact absurd rfl hab
      · exact Or.inl rfl
      · exact Or.inr rfl
      · exact absurd rfl hab
  | a :: b :: c :: l, p, q, hpq, hnd, hmem => by
      have ha := (hmem a).mp (by simp)
      have hb := (hmem b).mp (by simp)
      have hc := (hmem c).mp (by simp)
      rw [List.nodup_cons, List.nodup_cons] at hnd
      rcases ha with rfl | rfl <;> rcases hb with rfl | rfl <;> rcases hc with rfl | rfl <;>
        simp_all

lemma groupKeys_mem_iff (df : List Obs) (k : String) :
    k ∈ groupKeys df ↔ ∃ o ∈ df, o.project = k := by
  unfold groupKeys
  rw [(List.perm_insertionSort _ _).mem_iff, List.mem_dedup, List.mem_map]

lemma groupKeys_nodup (df : List Obs) : (groupKeys df).Nodup := by
  unfold groupKeys
  exact (List.perm_insertionSort _ _).nodup_iff.mpr (List.nodup_dedup _)

/-! ### Claims -/

/-- C1: for every `day_count ≥ 1` and non-empty `project_set`, `load_mock`
returns exactly `day_count × |project_set|` observations. -/
theorem claim_C1 (ints : ℕ → ℤ) (us : ℕ → ℚ) (today : ℤ) (days : ℕ)
    (projects : List String) (_hdays : 1 ≤ days) (_hne : projects ≠ []) :
    (load_mock ints us today days projects).length = days * projects.length :=
  length_load_mock ints us today days projects

/-- Witness for C1 at `day_count = 7`, `project_set = ["uniswap", "aave"]`. -/
theorem claim_C1_witness :
    (load_mock constInts constUs 0 7 ["uniswap", "aave"]).length = 7 * 2 :=
  claim_C1 constInts constUs 0 7 ["uniswap", "aave"] (by decide) (by decide)

/-- C2: the generated frame contains each (day, project) pair exactly once,
with days as the outer grouping and projects as the inner grouping, over the
contiguous `days`-day range ending at `today`, strictly increasing and
gap-free. -/
theorem claim_C2 (ints : ℕ → ℤ) (us : ℕ → ℚ) (today : ℤ) (days : ℕ)
    (projects : List String) (hdays : 1 ≤ days) (_hne : projects ≠ [])
    (hnodup : projects.Nodup) :
    ((load_mock ints us today days projects).map (fun o => (o.day, o.project)) =
        (dateRange today days).flatMap (fun d => projects.map (fun p => (d, p)))) ∧
      ((load_mock ints us today days projects).map (fun o => (o.day, o.project))).Nodup ∧
      (∀ d p,
        (d, p) ∈ (load_mock ints us today days projects).map (fun o => (o.day, o.project)) ↔
          d ∈ dateRange today days ∧ p ∈ projects) ∧
      (dateRange today days).length = days ∧
      (∀ i, ∀ hi : i + 1 < (dateRange today days).length,
        (dateRange today days).get ⟨i + 1, hi⟩ =
          (dateRange today days).get ⟨i, by omega⟩ + 1) ∧
      today ∈ dateRange today days ∧
      (∀ d ∈ dateRange today days, d ≤ today) := by
  have hpairs : (load_mock ints us today days projects).map (fun o => (o.day, o.project)) =
      (dateRange today days).flatMap (fun d => projects.map (fun p => (d, p))) := by
    rw [load_mock_pairs, zip_columns]
  have hmem : ∀ d p,
      (d, p) ∈ (load_mock ints us today days projects).map (fun o => (o.day, o.project)) ↔
        d ∈ dateRange today days ∧ p ∈ projects := by
    intro d p
    rw [hpairs]
    simp only [List.mem_flatMap, List.mem_map, Prod.mk.injEq]
    constructor
    · rintro ⟨a, ha, x, hx, rfl, rfl⟩
      exact ⟨ha, hx⟩
    · rintro ⟨hd, hp⟩
      exact ⟨d, hd, p, hp, rfl, rfl⟩
  have hnd : ((load_mock ints us today days projects).map
      (fun o => (o.day, o.project))).Nodup := by
    rw [hpairs, List.nodup_flatMap]
    constructor
    · intro d _
      exact hnodup.map (fun x y hxy => congrArg Prod.snd hxy)
    · refine List.Pairwise.imp ?_ (nodup_dateRange today days)
      intro a b hab x hxa hxb
      obtain ⟨pa, hpa, rfl⟩ := List.mem_map.mp hxa
      obtain ⟨pb, hpb, hx⟩ := List.mem_map.mp hxb
      exact hab (congrArg Prod.fst hx).symm
  refine ⟨hpairs, hnd, hmem, length_dateRange today days, ?_, ?_, ?_⟩
  · intro i hi
    rw [List.get_eq_getElem, List.get_eq_getElem]
    rw [length_dateRange] at hi
    simp only [dateRange, List.getElem_map, List.getElem_range]
    push_cast
    ring
  · rw [mem_dateRange_iff]
    omega
  · intro d hd
    exact (mem_dateRange_iff.mp hd).2

/-- Witness for C2: the pair structure of a concrete 2-day, 2-project frame. -/
theorem claim_C2_witness :
    (load_mock constInts constUs 10 2 ["uniswap", "aave"]).map (fun o => (o.day, o.project)) =
      (dateRange 10 2).flatMap (fun d => ["uniswap", "aave"].map (fun p => (d, p))) :=
  (claim_C2 constInts constUs 10 2 ["uniswap", "aave"] (by decide) (by decide)
    (by decide)).1

/-- C4: every generated `tx_count` is an integer in `[800, 3000)`. -/
theorem claim_C4 (ints : ℕ → ℤ) (us : ℕ → ℚ) (today : ℤ) (days : ℕ)
    (projects : List String) (hint : IntStream ints) :
    ∀ o ∈ load_mock ints us today days projects,
      800 ≤ o.tx_count ∧ o.tx_count < 3000 := by
  intro o ho
  obtain ⟨i, d, p, rfl⟩ := mem_load_mock ho
  exact hint i

/-- Witness for C4 on a concrete one-row frame. -/
theorem claim_C4_witness :
    800 ≤ (Obs.mk 0 "uniswap" 800 800).tx_count ∧
      (Obs.mk 0 "uniswap" 800 800).tx_count < 3000 :=
  claim_C4 constInts constUs 0 1 ["uniswap"] constInts_admissible
    (Obs.mk 0 "uniswap" 800 800)
    (by norm_num [load_mock, dayColumn, projectColumn, dateRange, constInts,
      constUs, round2, roundHalfEven, List.replicate, List.enum, List.enumFrom,
      List.range, List.range.loop])

/-- C3: every generated `amount_usd` is non-negative and equals
`round(tx_count × factor, 2)` for some factor in `[0.5, 2.0)`. -/
theorem claim_C3 (ints : ℕ → ℤ) (us : ℕ → ℚ) (today : ℤ) (days : ℕ)
    (projects : List String) (hint : IntStream ints) (hus : UniformStream us) :
    ∀ o ∈ load_mock ints us today days projects,
      0 ≤ o.amount_usd ∧
        ∃ f : ℚ, 1/2 ≤ f ∧ f < 2 ∧ o.amount_usd = round2 ((o.tx_count : ℚ) * f) := by
  intro o ho
  obtain ⟨i, d, p, rfl⟩ := mem_load_mock ho
  refine ⟨round2_nonneg ?_, us i, (hus i).1, (hus i).2, rfl⟩
  have h8 : (0 : ℚ) ≤ (ints i : ℚ) := by
    have := (hint i).1
    exact_mod_cast le_trans (by norm_num) this
  have hu : (0 : ℚ) ≤ us i := le_trans (by norm_num) (hus i).1
  exact mul_nonneg h8 hu

/-- Witness for C3 on a concrete one-row frame. -/
theorem claim_C3_witness :
    0 ≤ (Obs.mk 0 "uniswap" 800 800).amount_usd ∧
      ∃ f : ℚ, 1/2 ≤ f ∧ f < 2 ∧
        (Obs.mk 0 "uniswap" 800 800).amount_usd =
          round2 (((Obs.mk 0 "uniswap" 800 800).tx_count : ℚ) * f) :=
  claim_C3 constInts constUs 0 1 ["uniswap"] constInts_admissible constUs_admissible
    (Obs.mk 0 "uniswap" 800 800)
    (by norm_num [load_mock, dayColumn, projectColumn, dateRange, constInts,
      constUs, round2, roundHalfEven, List.replicate, List.enum, List.enumFrom,
      List.range, List.range.loop])

/-- C10: because `np.random.default_rng(42)` is freshly seeded inside every
invocation, the `tx_count` and `amount_usd` columns depend only on
`day_count × |project_set|`: two invocations with the same `day_count` and the
same number of projects produce identical numeric columns, whatever the
reference dates and project names. -/
theorem claim_C10 (ints : ℕ → ℤ) (us : ℕ → ℚ) (t t' : ℤ) (days : ℕ)
    (P P' : List String) (hlen : P.length = P'.length) :
    (load_mock ints us t days P).map Obs.tx_count =
        (load_mock ints us t' days P').map Obs.tx_count ∧
      (load_mock ints us t days P).map Obs.amount_usd =
        (load_mock ints us t' days P').map Obs.amount_usd := by
  constructor
  · rw [load_mock_tx, load_mock_tx, hlen]
  · rw [load_mock_amount, load_mock_amount, hlen]

/-- Witness for C10: different reference dates and project names, same shape. -/
theorem claim_C10_witness :
    (load_mock constInts constUs 0 2 ["uniswap", "aave"]).map Obs.tx_count =
        (load_mock constInts constUs 5 2 ["curve", "balancer"]).map Obs.tx_count ∧
      (load_mock constInts constUs 0 2 ["uniswap", "aave"]).map Obs.amount_usd =
        (load_mock constInts constUs 5 2 ["curve", "balancer"]).map Obs.amount_usd :=
  claim_C10 constInts constUs 0 5 2 ["uniswap", "aave"] ["curve", "balancer"] rfl

/-- C5: the date filter keeps exactly the observations with `d1 ≤ day ≤ d2`,
as a subsequence of its input; a reversed range (`d1 > d2`) gives an empty
result, and a range lying entirely before the generated days gives an empty
result without an error. -/
theorem claim_C5 :
    (∀ (d1 d2 : ℤ) (df : List Obs),
      (∀ o, o ∈ dateFilter d1 d2 df ↔ o ∈ df ∧ d1 ≤ o.day ∧ o.day ≤ d2) ∧
        List.Sublist (dateFilter d1 d2 df) df ∧
        (d2 < d1 → dateFilter d1 d2 df = [])) ∧
      (∀ (ints : ℕ → ℤ) (us : ℕ → ℚ) (today : ℤ) (days : ℕ)
        (projects : List String) (d1 d2 : ℤ),
        d2 < today - ((days : ℤ) - 1) →
          dateFilter d1 d2 (load_mock ints us today days projects) = []) := by
  constructor
  · intro d1 d2 df
    refine ⟨?_, List.filter_sublist df, ?_⟩
    · intro o
      unfold dateFilter
      rw [List.mem_filter]
      simp [Bool.and_eq_true, decide_eq_true_eq, and_assoc]
    · intro h
      unfold dateFilter
      rw [List.filter_eq_nil_iff]
      intro o _
      simp only [Bool.and_eq_true, decide_eq_true_eq, not_and]
      intro h1 h2
      omega
  · intro ints us today days projects d1 d2 hbefore
    unfold dateFilter
    rw [List.filter_eq_nil_iff]
    intro o ho
    have hb := load_mock_day_bounds ho
    simp only [Bool.and_eq_true, decide_eq_true_eq, not_and]
    intro h1 h2
    omega

/-- Witness for C5: a reversed range on a one-row frame is empty. -/
theorem claim_C5_witness :
    dateFilter 5 3 [Obs.mk 4 "uniswap" 800 800] = [] :=
  (claim_C5.1 5 3 [Obs.mk 4 "uniswap" 800 800]).2.2 (by decide)

/-- C6: with the cache modelled as a TTL-stamped entry, a second call with the
same key within the TTL returns exactly the first result; after TTL expiry the
generator reruns at the new reference date and the result has the same shape:
same row count, the same project column, and the day column again the repeated
contiguous range for the (possibly shifted) reference date. -/
theorem claim_C6 (ints : ℕ → ℤ) (us : ℕ → ℚ) (todayOf : ℤ → ℤ) (days : ℕ)
    (projects : List String) (t0 t1 : ℤ) :
    (t1 - t0 < ttlSeconds →
      (cacheStep (fun t => load_mock ints us (todayOf t) days projects)
          (some ((cacheStep (fun t => load_mock ints us (todayOf t) days projects)
            none t0).2)) t1).1 =
        (cacheStep (fun t => load_mock ints us (todayOf t) days projects) none t0).1) ∧
      (ttlSeconds ≤ t1 - t0 →
        ((cacheStep (fun t => load_mock ints us (todayOf t) days projects)
              (some ((cacheStep (fun t => load_mock ints us (todayOf t) days projects)
                none t0).2)) t1).1.length =
            (cacheStep (fun t => load_mock ints us (todayOf t) days projects)
              none t0).1.length ∧
          (cacheStep (fun t => load_mock ints us (todayOf t) days projects)
              (some ((cacheStep (fun t => load_mock ints us (todayOf t) days projects)
                none t0).2)) t1).1.map Obs.project =
            (cacheStep (fun t => load_mock ints us (todayOf t) days projects)
              none t0).1.map Obs.project ∧
          (cacheStep (fun t => load_mock ints us (todayOf t) days projects)
              (some ((cacheStep (fun t => load_mock ints us (todayOf t) days projects)
                none t0).2)) t1).1.map Obs.day =
            dayColumn (todayOf t1) days projects)) := by
  constructor
  · intro h
    simp only [cacheStep, if_pos h]
  · intro h
    have hnot : ¬ t1 - t0 < ttlSeconds := not_lt.mpr h
    simp only [cacheStep, if_neg hnot]
    refine ⟨?_, ?_, load_mock_day ints us (todayOf t1) days projects⟩
    · rw [length_load_mock, length_load_mock]
    · rw [load_mock_project, load_mock_project]
      unfold projectColumn
      rw [length_dateRange, length_dateRange]

/-- Witness for C6: a second call 10 seconds later returns the cached frame. -/
theorem claim_C6_witness :
    (cacheStep (fun t => load_mock constInts constUs t 1 ["uniswap"])
        (some ((cacheStep (fun t => load_mock constInts constUs t 1 ["uniswap"])
          none 0).2)) 10).1 =
      (cacheStep (fun t => load_mock constInts constUs t 1 ["uniswap"]) none 0).1 :=
  (claim_C6 constInts constUs (fun t => t) 1 ["uniswap"] 0 10).1 (by decide)

/-- C7: an empty project selection, or an empty filtered frame, halts the
rerun with a distinct informational outcome; the empty-selection check comes
first, and only a non-empty selection with a non-empty frame renders. -/
theorem claim_C7 :
    (∀ df : List Obs, viewOutcome [] df = ViewOutcome.emptySelection) ∧
      (∀ (selected : List String) (df : List Obs),
        selected ≠ [] → df = [] → viewOutcome selected df = ViewOutcome.emptyResult) ∧
      (∀ (selected : List String) (df : List Obs),
        selected ≠ [] → df ≠ [] → viewOutcome selected df = ViewOutcome.rendered) ∧
      ViewOutcome.emptySelection ≠ ViewOutcome.emptyResult := by
  refine ⟨fun df => rfl, ?_, ?_, by decide⟩
  · intro selected df hs hdf
    subst hdf
    unfold viewOutcome
    rw [if_neg, if_pos List.isEmpty_nil]
    simp [List.isEmpty_iff, hs]
  · intro selected df hs hdf
    unfold viewOutcome
    rw [if_neg, if_neg] <;> simp [List.isEmpty_iff, hs, hdf]

/-- Witness for C7: non-empty selection with an empty filtered frame. -/
theorem claim_C7_witness :
    viewOutcome ["uniswap"] [] = ViewOutcome.emptyResult :=
  claim_C7.2.1 ["uniswap"] [] (by decide) rfl

/-- C8: the `load_mock` call site never passes an empty project collection:
an empty selection is replaced by the non-empty `all_projects` tuple, so the
generator's undefined empty-input case is unreachable. -/
theorem claim_C8 :
    (∀ selected : List String, projectsArg selected ≠ []) ∧
      projectsArg [] = all_projects ∧
      (∀ selected : List String, selected ≠ [] → projectsArg selected = selected) := by
  refine ⟨?_, rfl, ?_⟩
  · intro selected
    unfold projectsArg
    cases selected with
    | nil => simp [all_projects]
    | cons a l => simp
  · intro selected hs
    unfold projectsArg
    simp [List.isEmpty_iff, hs]

/-- Witness for C8: a non-empty selection is passed through unchanged. -/
theorem claim_C8_witness : projectsArg ["curve"] = ["curve"] :=
  claim_C8.2.2 ["curve"] (by decide)

/-- C9: the breakdown pipeline sums the chosen metric per project, sorts
descending by that sum, and truncates to the top `topn` rows; on any two-project
frame whose first project has the strictly greater sum, top-1 is exactly that
project's row. -/
theorem claim_C9 :
    (∀ (metric : Obs → ℚ) (topn : ℕ) (df : List Obs),
      (breakdown metric topn df).length ≤ topn ∧
        List.Sorted (fun a b : String × ℚ => b.2 ≤ a.2) (breakdown metric topn df) ∧
        ∀ r ∈ breakdown metric topn df,
          r.2 = ((df.filter (fun o => o.project == r.1)).map metric).sum) ∧
      (∀ (metric : Obs → ℚ) (df : List Obs) (p q : String), p ≠ q →
        (∀ o ∈ df, o.project = p ∨ o.project = q) →
        (∃ o ∈ df, o.project = p) → (∃ o ∈ df, o.project = q) →
        ((df.filter (fun o => o.project == q)).map metric).sum <
            ((df.filter (fun o => o.project == p)).map metric).sum →
        breakdown metric 1 df =
          [(p, ((df.filter (fun o => o.project == p)).map metric).sum)]) := by
  constructor
  · intro metric topn df
    haveI : IsTotal (String × ℚ) (fun a b => b.2 ≤ a.2) := ⟨fun a b => le_total b.2 a.2⟩
    haveI : IsTrans (String × ℚ) (fun a b => b.2 ≤ a.2) :=
      ⟨fun _ _ _ hab hbc => le_trans hbc hab⟩
    refine ⟨?_, ?_, ?_⟩
    · unfold breakdown
      rw [List.length_take]
      exact min_le_left _ _
    · have hsorted : List.Sorted (fun a b : String × ℚ => b.2 ≤ a.2)
          (sortByMetricDesc (groupSum metric df)) := by
        unfold sortByMetricDesc
        exact List.sorted_insertionSort _ _
      exact List.Pairwise.sublist (List.take_sublist _ _) hsorted
    · intro r hr
      have h1 : r ∈ sortByMetricDesc (groupSum metric df) :=
        (List.take_sublist _ _).subset hr
      have h2 : r ∈ groupSum metric df := by
        unfold sortByMetricDesc at h1
        exact (List.perm_insertionSort _ _).mem_iff.mp h1
      obtain ⟨k, _, rfl⟩ := List.mem_map.mp h2
      rfl
  · intro metric df p q hpq hproj hp hq hsum
    have hmem : ∀ k, k ∈ groupKeys df ↔ k = p ∨ k = q := by
      intro k
      rw [groupKeys_mem_iff]
      constructor
      · rintro ⟨o, ho, rfl⟩
        exact hproj o ho
      · rintro (rfl | rfl)
        · exact hp
        · exact hq
    rcases two_elem_nodup_eq (groupKeys df) p q hpq (groupKeys_nodup df) hmem with
      hkeys | hkeys
    · unfold breakdown groupSum sortByMetricDesc
      rw [hkeys]
      simp [List.insertionSort, List.orderedInsert, hsum.le]
    · unfold breakdown groupSum sortByMetricDesc
      rw [hkeys]
      simp [List.insertionSort, List.orderedInsert, hsum.not_le]

/-- The 14-row sample frame, written out. -/
lemma sampleFrame14_eq :
    sampleFrame14 =
      [Obs.mk 7 "uniswap" 800 800, Obs.mk 7 "aave" 801 801,
       Obs.mk 8 "uniswap" 802 802, Obs.mk 8 "aave" 803 803,
       Obs.mk 9 "uniswap" 804 804, Obs.mk 9 "aave" 805 805,
       Obs.mk 10 "uniswap" 806 806, Obs.mk 10 "aave" 807 807,
       Obs.mk 11 "uniswap" 808 808, Obs.mk 11 "aave" 809 809,
       Obs.mk 12 "uniswap" 810 810, Obs.mk 12 "aave" 811 811,
       Obs.mk 13 "uniswap" 812 812, Obs.mk 13 "aave" 813 813] := by
  norm_num [sampleFrame14, load_mock, dayColumn, projectColumn, dateRange, seqInts,
    constUs, round2, roundHalfEven, List.replicate, List.enum, List.enumFrom,
    List.range, List.range.loop]

/-- Witness for C9: top-1 on the 14-row two-project frame is the project with
the greater summed `amount_usd`. -/
theorem claim_C9_witness :
    breakdown Obs.amount_usd 1 sampleFrame14 =
      [("aave",
        ((sampleFrame14.filter (fun o => o.project == "aave")).map Obs.amount_usd).sum)] :=
  claim_C9.2 Obs.amount_usd sampleFrame14 "aave" "uniswap" (by decide)
    (by rw [sampleFrame14_eq]; decide)
    (by rw [sampleFrame14_eq]; decide)
    (by rw [sampleFrame14_eq]; decide)
    (by rw [sampleFrame14_eq]
        simp only [List.filter_cons, List.filter_nil, List.map_cons, List.map_nil,
          List.sum_cons, List.sum_nil, beq_iff_eq, String.reduceEq, if_true, if_false,
          reduceIte]
        norm_num)

end StreamlitApp
